import Mathlib

/-!
# Fallback processor detection and dispatch (`src/processor_fallback.cpp`)

A shallow embedding of the `Fallback` namespace and of the exported entry points that
use it.  The process-wide vector `jit_targets` is passed explicitly: every operation takes
the registry it starts from and returns an `Outcome` holding its result together with the
registry it leaves behind.  `jl_error` does not return to its caller; it is modelled as an
`error` result that carries the registry as it was at the point of the call.

Functions, constants and types that the file uses but does not define are collected in
`Collaborators` and every theorem quantifies over them.
-/

set_option linter.unusedVariables false

namespace Fallback

/-- The bytes behind the `const void *id` handed to `sysimg_init_cb`. -/
abbrev Bytes := List Nat

/-- Modelled from the spec: the declaration of `FeatureList<1>` is not in the source.  The
specification calls it an opaque feature-set value; it is kept as the list of its words,
and the value-initialised list `{}` is the empty one. -/
abbrev FeatureList := List Nat

/-- Modelled from the spec: the declaration of `TargetData<1>` is not in the source.  The
fields are the four that section 3 of the specification lists and that the source reads:
`name`, `ext_features`, `features` and `flags` (a `uint32_t`).  Their order is the one the
source forces on the aggregate `TargetData<1>{host_cpu_name(), jl_get_cpu_features_llvm(),
{}, 0}`: `jl_get_cpu_features_llvm()` is a `std::string` (it is printed through `.c_str()`
and appended to `ext_features` by `arg_target_data`), `ext_features` is a `std::string`
(`target.ext_features.c_str()`), while `features` is handed to `serialize_target_data` as
it is, next to the two `.c_str()` arguments, and belongs to the same template argument as
the `FeatureList<1>` of `feature_cb`.  The string therefore initialises `ext_features` and
`{}` initialises `features` (section 4.1 of the specification reads the two the other way
round, which would leave the host features out of every formatted feature string). -/
structure TargetData where
  name : String
  ext_features : String
  features : FeatureList
  flags : Nat
  deriving DecidableEq, Repr

/-- Modelled from the spec: the declaration of `TargetArg<1>` is not in the source.  A raw
command-line request carries a name, extra feature text, feature data and flags. -/
structure TargetArg where
  name : String
  ext_features : String
  features : FeatureList
  flags : Nat
  deriving DecidableEq, Repr

/-- Modelled from the spec: the conversion behind `TargetData<1> res = arg;`, which is not
in the source, copies the fields of the request. -/
def TargetArg.toTargetData (arg : TargetArg) : TargetData :=
  { name := arg.name, ext_features := arg.ext_features, features := arg.features,
    flags := arg.flags }

/-- Everything `processor_fallback.cpp` calls or reads without defining it. -/
structure Collaborators where
  /-- Value of `jl_get_cpu_name_llvm()`, cached by `host_cpu_name`. -/
  jl_get_cpu_name_llvm : String
  /-- Value of `jl_get_cpu_features_llvm()`. -/
  jl_get_cpu_features_llvm : String
  /-- Value of `::get_cmdline_targets<1>(feature_cb)`. -/
  cmdline_targets : List TargetArg
  /-- Decoder `deserialize_target_data<1>`. -/
  deserialize_target_data : Bytes → List TargetData
  /-- Encoder `serialize_target_data`; its first and third argument are C strings. -/
  serialize_target_data : String → FeatureList → String → Bytes
  /-- Overload `append_ext_features(std::string&, const std::string&)`; the updated first
  argument is returned. -/
  append_ext_features : String → String → String
  /-- Overload `append_ext_features(std::vector<std::string>&, const std::string&)`. -/
  append_ext_features_vec : List String → String → List String
  /-- Function `join_feature_strs`. -/
  join_feature_strs : List String → String
  /-- Constant `JL_TARGET_CLONE_ALL`. -/
  JL_TARGET_CLONE_ALL : Nat

/-- The four messages passed to `jl_error`, under the names the specification gives them,
and the two reads past the end of a vector: `sysimg[best_idx]` on an empty catalog and
`jit_targets[0]` on an empty registry. -/
inductive Error where
  /-- Message "More than one command line CPU targets specified when not generating
  sysimg", raised by `sysimg_init_cb` and by `ensure_jit_target`. -/
  | ConflictingTargets
  /-- Message "clone_all feature specified when not generating sysimg.". -/
  | InvalidFlagForMode
  /-- Message "JIT targets already initialized". -/
  | AlreadyInitialized
  /-- Message "JIT targets not initialized". -/
  | NotInitialized
  /-- Read of `sysimg[best_idx]` past the end of the decoded catalog. -/
  | CatalogOutOfRange
  /-- Read of `jit_targets[0]` while `jit_targets` is empty. -/
  | RegistryOutOfRange
  deriving DecidableEq, Repr

/-- How a call ends: with a value, in `jl_error`, or not within the given number of loop
iterations. -/
inductive Result (α : Type) where
  | ok : α → Result α
  | error : Error → Result α
  | out_of_fuel : Result α
  deriving DecidableEq, Repr

/-- Result of a call together with the contents of `jit_targets` after it. -/
structure Outcome (α : Type) where
  result : Result α
  jit_targets : List TargetData
  deriving DecidableEq, Repr

/-- Function `host_cpu_name()`. -/
def host_cpu_name (E : Collaborators) : String :=
  E.jl_get_cpu_name_llvm

/-- Function `Fallback::get_cmdline_targets()`. -/
def get_cmdline_targets (E : Collaborators) : List TargetArg :=
  E.cmdline_targets

/-- Function `host_target_data()`. -/
def host_target_data (E : Collaborators) : TargetData :=
  { name := host_cpu_name E, ext_features := E.jl_get_cpu_features_llvm, features := [],
    flags := 0 }

/-- Function `arg_target_data(arg, require_host)`. -/
def arg_target_data (E : Collaborators) (arg : TargetArg) (require_host : Bool) : TargetData :=
  let res := arg.toTargetData
  if res.name = "native" then
    { res with
      name := host_cpu_name E
      ext_features := E.append_ext_features res.ext_features E.jl_get_cpu_features_llvm }
  else
    res

/-- The loop `for (uint32_t i = 0; i < sysimg.size(); i++)` of `sysimg_init_cb`, entered
with the current `i` and `best_idx`.  The counter is a `uint32_t`, so the increment wraps
at `2 ^ 32`; `fuel` bounds the number of evaluations of the loop condition and `none`
means that the loop is still running when they are used up. -/
def find_best_idx (sysimg : List TargetData) (name : String) :
    Nat → Nat → Nat → Option Nat
  | 0, _, _ => none
  | fuel + 1, i, best_idx =>
    if h : i < sysimg.length then
      find_best_idx sysimg name fuel ((i + 1) % 4294967296)
        (if sysimg[i].name = name then i else best_idx)
    else
      some best_idx

/-- First half of `sysimg_init_cb` (lines 41 to 57): the target requested for the JIT, or
the error raised while looking at the command line. -/
def requested_target (E : Collaborators) : Except Error TargetData :=
  let cmdline := get_cmdline_targets E
  if cmdline.length > 1 then
    .error .ConflictingTargets
  else
    match cmdline with
    | [] => .ok (host_target_data E)
    | targetarg :: _ =>
      if targetarg.flags &&& E.JL_TARGET_CLONE_ALL ≠ 0 then
        .error .InvalidFlagForMode
      else
        .ok (arg_target_data E targetarg true)

/-- Function `sysimg_init_cb(id)`. -/
def sysimg_init_cb (E : Collaborators) (fuel : Nat) (id : Bytes)
    (jit_targets : List TargetData) : Outcome Nat :=
  match requested_target E with
  | .error e => ⟨.error e, jit_targets⟩
  | .ok target =>
    let sysimg := E.deserialize_target_data id
    match find_best_idx sysimg target.name fuel 0 0 with
    | none => ⟨.out_of_fuel, jit_targets⟩
    | some best_idx =>
      match sysimg[best_idx]? with
      | none => ⟨.error .CatalogOutOfRange, jit_targets⟩
      | some target => ⟨.ok best_idx, jit_targets ++ [target]⟩

/-- The statement `t.flags |= JL_TARGET_CLONE_ALL`. -/
def set_clone_all (E : Collaborators) (t : TargetData) : TargetData :=
  { t with flags := t.flags ||| E.JL_TARGET_CLONE_ALL }

/-- Function `ensure_jit_target(imaging)`.  The range-for loop pushes one resolved target
per request; the second loop runs `i` over `1 .. ntargets - 1` (a `size_t` below the size
of the vector, so it does not wrap). -/
def ensure_jit_target (E : Collaborators) (imaging : Bool)
    (jit_targets : List TargetData) : Outcome Unit :=
  if !jit_targets.isEmpty then
    ⟨.ok (), jit_targets⟩
  else
    let cmdline := get_cmdline_targets E
    if cmdline.length > 1 && !imaging then
      ⟨.error .ConflictingTargets, jit_targets⟩
    else if cmdline.isEmpty then
      ⟨.ok (), jit_targets ++ [host_target_data E]⟩
    else
      let pushed := cmdline.foldl
        (fun targets arg => targets ++ [arg_target_data E arg targets.isEmpty]) jit_targets
      let ntargets := pushed.length
      let cloned := (List.range' 1 (ntargets - 1)).foldl
        (fun targets i => targets.modify (set_clone_all E) i) pushed
      ⟨.ok (), cloned⟩

/-- Modelled from the spec: `parse_sysimg` is not in the source.  Following section 4.2
(`select_from_image(catalog_bytes) -> index`) it runs the callback once on the catalog
bytes of the image, and the index the callback returns is the result. -/
def parse_sysimg (hdl : Bytes) (callback : Bytes → List TargetData → Outcome Nat)
    (jit_targets : List TargetData) : Outcome Nat :=
  callback hdl jit_targets

/-- Function `jl_init_processor_sysimg(hdl)`. -/
def jl_init_processor_sysimg (E : Collaborators) (fuel : Nat) (hdl : Bytes)
    (jit_targets : List TargetData) : Outcome Nat :=
  if !jit_targets.isEmpty then
    ⟨.error .AlreadyInitialized, jit_targets⟩
  else
    parse_sysimg hdl (sysimg_init_cb E fuel) jit_targets

/-- The text that the `const char *` returned by `.c_str()` denotes: the characters in
front of the first NUL. -/
def c_str (s : String) : String :=
  ⟨s.data.takeWhile (fun c => c != Char.ofNat 0)⟩

/-- Function `get_llvm_target_noext(data)`. -/
def get_llvm_target_noext (data : TargetData) : String × List String :=
  (data.name, [])

/-- Function `get_llvm_target_vec(data)`. -/
def get_llvm_target_vec (E : Collaborators) (data : TargetData) : String × List String :=
  let res0 := get_llvm_target_noext data
  (res0.1, E.append_ext_features_vec res0.2 data.ext_features)

/-- Function `get_llvm_target_str(data)`. -/
def get_llvm_target_str (E : Collaborators) (data : TargetData) : String × String :=
  let res0 := get_llvm_target_noext data
  let features := E.join_feature_strs res0.2
  (res0.1, E.append_ext_features features data.ext_features)

/-- Function `jl_get_llvm_target(imaging, uint32_t)`; the second parameter has no name in
the source. -/
def jl_get_llvm_target (E : Collaborators) (imaging : Bool) (index : Nat)
    (jit_targets : List TargetData) : Outcome (String × List String) :=
  let ensured := ensure_jit_target E imaging jit_targets
  match ensured.result with
  | .ok _ =>
    match ensured.jit_targets[0]? with
    | some target => ⟨.ok (get_llvm_target_vec E target), ensured.jit_targets⟩
    | none => ⟨.error .RegistryOutOfRange, ensured.jit_targets⟩
  | .error e => ⟨.error e, ensured.jit_targets⟩
  | .out_of_fuel => ⟨.out_of_fuel, ensured.jit_targets⟩

/-- Function `jl_get_llvm_disasm_target(uint32_t)`.  The function-local static `res` is
computed on the first call from values that do not change during the process, so every
call returns the same pair; the name of the aggregate is built from
`host_cpu_name().c_str()`. -/
def jl_get_llvm_disasm_target (E : Collaborators) (index : Nat)
    (jit_targets : List TargetData) : Outcome (String × String) :=
  ⟨.ok (get_llvm_target_str E
      { name := c_str (host_cpu_name E), ext_features := E.jl_get_cpu_features_llvm,
        features := [], flags := 0 }),
    jit_targets⟩

/-- Modelled from the spec: the declaration of `jl_target_spec_t` is not in the source.
The fields are the four that `jl_get_llvm_clone_targets` writes. -/
structure jl_target_spec_t where
  cpu_name : String
  cpu_features : String
  data : Bytes
  flags : Nat
  deriving DecidableEq, Repr

/-- Body of the loop of `jl_get_llvm_clone_targets`: the element built for one target. -/
def clone_target_spec (E : Collaborators) (target : TargetData) : jl_target_spec_t :=
  let features := target.features
  let str := get_llvm_target_str E target
  { cpu_name := str.1
    cpu_features := str.2
    data := E.serialize_target_data (c_str target.name) features (c_str target.ext_features)
    flags := target.flags }

/-- Function `jl_get_llvm_clone_targets(uint32_t)`. -/
def jl_get_llvm_clone_targets (E : Collaborators) (index : Nat)
    (jit_targets : List TargetData) : Outcome (List jl_target_spec_t) :=
  if jit_targets.isEmpty then
    ⟨.error .NotInitialized, jit_targets⟩
  else
    let res := jit_targets.foldl (fun res target => res ++ [clone_target_spec E target]) []
    ⟨.ok res, jit_targets⟩

/-- A call of one of the operations of the unit, with its arguments. -/
inductive Call where
  | ensure_jit_target (imaging : Bool)
  | jl_init_processor_sysimg (fuel : Nat) (hdl : Bytes)
  | jl_get_llvm_target (imaging : Bool) (index : Nat)
  | jl_get_llvm_disasm_target (index : Nat)
  | jl_get_llvm_clone_targets (index : Nat)
  deriving DecidableEq, Repr

/-- Step relation on the registry: the contents of `jit_targets` after a call. -/
def registry_after (E : Collaborators) (call : Call) (jit_targets : List TargetData) :
    List TargetData :=
  match call with
  | .ensure_jit_target imaging => (ensure_jit_target E imaging jit_targets).jit_targets
  | .jl_init_processor_sysimg fuel hdl =>
    (jl_init_processor_sysimg E fuel hdl jit_targets).jit_targets
  | .jl_get_llvm_target imaging index =>
    (jl_get_llvm_target E imaging index jit_targets).jit_targets
  | .jl_get_llvm_disasm_target index =>
    (jl_get_llvm_disasm_target E index jit_targets).jit_targets
  | .jl_get_llvm_clone_targets index =>
    (jl_get_llvm_clone_targets E index jit_targets).jit_targets

/-- The registry after a sequence of calls, made one after the other. -/
def registry_after_all (E : Collaborators) (calls : List Call)
    (jit_targets : List TargetData) : List TargetData :=
  calls.foldl (fun targets call => registry_after E call targets) jit_targets

/-- The implicit request of section 4.1 of the specification: the sentinel name, no extra
features and zero flags. -/
def sentinel_request : TargetArg :=
  { name := "native", ext_features := "", features := [], flags := 0 }

/-- Modelled from the spec: the body of `append_ext_features` is not in the source.
Section 4.1 says of it that the existing `ext_features` entries are preserved and the
host features are appended after them; appended to an `ext_features` without entries,
the host features are all there is. -/
def appends_host_features_to_empty (E : Collaborators) : Prop :=
  E.append_ext_features "" E.jl_get_cpu_features_llvm = E.jl_get_cpu_features_llvm

instance (E : Collaborators) : Decidable (appends_host_features_to_empty E) :=
  inferInstanceAs
    (Decidable
      (E.append_ext_features "" E.jl_get_cpu_features_llvm = E.jl_get_cpu_features_llvm))

/-- Resolution of a request as section 4.1 of the specification words it. -/
def resolve_spec (E : Collaborators) (request : TargetArg) : TargetData :=
  if request.name = "native" then
    { name := E.jl_get_cpu_name_llvm
      ext_features := E.append_ext_features request.ext_features E.jl_get_cpu_features_llvm
      features := request.features
      flags := request.flags }
  else
    { name := request.name
      ext_features := request.ext_features
      features := request.features
      flags := request.flags }

/-- A catalog entry that carries nothing but a name. -/
def named (n : String) : TargetData :=
  { name := n, ext_features := "", features := [], flags := 0 }

/-- Collaborators of a test run: host name and features, command line and decoded catalog
are given, features are appended with a comma, the encoder lists the lengths of the two
strings in front of the feature words, `JL_TARGET_CLONE_ALL` is bit 1. -/
def test_env (host hostfeat : String) (cmdline : List TargetArg)
    (catalog : List TargetData) : Collaborators :=
  { jl_get_cpu_name_llvm := host
    jl_get_cpu_features_llvm := hostfeat
    cmdline_targets := cmdline
    deserialize_target_data := fun _ => catalog
    serialize_target_data := fun name features ext => name.length :: ext.length :: features
    append_ext_features := fun a b => if b = "" then a else if a = "" then b else a ++ "," ++ b
    append_ext_features_vec := fun v s => if s = "" then v else v ++ [s]
    join_feature_strs := fun v => ",".intercalate v
    JL_TARGET_CLONE_ALL := 2 }

/-! ## The catalog scan -/

/-- Whenever the scan returns, it returns the last index from `i` on whose entry has the
requested name, and the `best_idx` it was entered with when there is none. -/
theorem find_best_idx_sound (l : List TargetData) (name : String)
    (hlen : l.length < 4294967296) :
    ∀ (fuel i best r : Nat), find_best_idx l name fuel i best = some r →
      (∀ j t, i ≤ j → l[j]? = some t → t.name = name →
          j ≤ r ∧ ∃ t', l[r]? = some t' ∧ t'.name = name) ∧
      ((∀ j t, i ≤ j → l[j]? = some t → t.name ≠ name) → r = best) := by
  intro fuel
  induction fuel with
  | zero => intro i best r h; simp [find_best_idx] at h
  | succ n ih =>
    intro i best r h
    unfold find_best_idx at h
    split at h
    · rename_i hi
      have hmod : (i + 1) % 4294967296 = i + 1 := Nat.mod_eq_of_lt (by omega)
      rw [hmod] at h
      obtain ⟨h1, h2⟩ := ih _ _ _ h
      have hget : l[i]? = some l[i] := List.getElem?_eq_getElem hi
      constructor
      · intro j t hij hj hname
        by_cases hex : ∃ j' t', i + 1 ≤ j' ∧ l[j']? = some t' ∧ t'.name = name
        · obtain ⟨j', t', hj', ht', hn'⟩ := hex
          have hr := h1 j' t' hj' ht' hn'
          rcases Nat.eq_or_lt_of_le hij with heq | hlt
          · exact ⟨by omega, hr.2⟩
          · exact h1 j t hlt hj hname
        · have hno : ∀ j' t', i + 1 ≤ j' → l[j']? = some t' → t'.name ≠ name := by
            intro j' t' hj' ht' hn'
            exact hex ⟨j', t', hj', ht', hn'⟩
          have hr := h2 hno
          have hji : j = i := by
            by_contra hne
            exact hno j t (by omega) hj hname
          subst hji
          have ht : l[j] = t := by
            rw [hget] at hj
            exact Option.some.inj hj
          rw [ht, if_pos hname] at hr
          subst hr
          exact ⟨le_refl _, t, hj, hname⟩
      · intro hno
        have hr := h2 (fun j t hj => hno j t (by omega))
        have hni : l[i].name ≠ name := hno i l[i] (le_refl _) hget
        rw [if_neg hni] at hr
        exact hr
    · rename_i hi
      have hr : best = r := Option.some.inj h
      subst hr
      constructor
      · intro j t hij hj _
        have hjl : j < l.length := by
          by_contra hge
          rw [List.getElem?_eq_none (by omega)] at hj
          exact Option.noConfusion hj
        omega
      · intro _
        rfl

/-- A catalog of fewer than `2 ^ 32` entries is scanned to the end as soon as the fuel
exceeds the number of entries left. -/
theorem find_best_idx_terminates (l : List TargetData) (name : String)
    (hlen : l.length < 4294967296) :
    ∀ (fuel i best : Nat), l.length - i < fuel →
      ∃ r, find_best_idx l name fuel i best = some r := by
  intro fuel
  induction fuel with
  | zero => intro i best h; omega
  | succ n ih =>
    intro i best h
    unfold find_best_idx
    split
    · rename_i hi
      have hmod : (i + 1) % 4294967296 = i + 1 := Nat.mod_eq_of_lt (by omega)
      rw [hmod]
      exact ih _ _ (by omega)
    · exact ⟨best, rfl⟩

/-- On a catalog of `2 ^ 32` entries or more the 32-bit counter never reaches the size of
the catalog: the scan is still running after any number of steps. -/
theorem find_best_idx_diverges (l : List TargetData) (name : String)
    (hlen : 4294967296 ≤ l.length) :
    ∀ (fuel i best : Nat), i < 4294967296 → find_best_idx l name fuel i best = none := by
  intro fuel
  induction fuel with
  | zero => intro i best _; rfl
  | succ n ih =>
    intro i best hi
    unfold find_best_idx
    rw [dif_pos (by omega)]
    exact ih _ _ (Nat.mod_lt _ (by decide))

/-- From an empty registry the entry point runs the callback. -/
theorem jl_init_processor_sysimg_nil (E : Collaborators) (fuel : Nat) (id : Bytes) :
    jl_init_processor_sysimg E fuel id [] = sysimg_init_cb E fuel id [] := rfl

/-- Shape of a successful run of the callback: the scan returned the index, and the entry
at that index was pushed. -/
theorem sysimg_init_cb_ok (E : Collaborators) (fuel : Nat) (id : Bytes)
    (reg reg' : List TargetData) (idx : Nat)
    (h : sysimg_init_cb E fuel id reg = ⟨.ok idx, reg'⟩) :
    ∃ target t, requested_target E = .ok target ∧
      find_best_idx (E.deserialize_target_data id) target.name fuel 0 0 = some idx ∧
      (E.deserialize_target_data id)[idx]? = some t ∧ reg' = reg ++ [t] := by
  unfold sysimg_init_cb at h
  split at h
  · simp at h
  · rename_i target hreq
    simp only at h
    split at h
    · simp at h
    · rename_i best hbest
      split at h
      · simp at h
      · rename_i t ht
        simp only [Outcome.mk.injEq, Result.ok.injEq] at h
        obtain ⟨h1, h2⟩ := h
        subst h1
        exact ⟨target, t, hreq, hbest, ht, h2.symm⟩

/-! ## The two loops of `ensure_jit_target` -/

/-- The argument `require_host` is not read. -/
theorem arg_target_data_require_host (E : Collaborators) (arg : TargetArg) (b c : Bool) :
    arg_target_data E arg b = arg_target_data E arg c := rfl

/-- The range-for loop appends the resolved requests, in order. -/
theorem push_loop_eq (E : Collaborators) :
    ∀ (cmdline : List TargetArg) (acc : List TargetData),
      cmdline.foldl
          (fun targets arg => targets ++ [arg_target_data E arg targets.isEmpty]) acc
        = acc ++ cmdline.map (fun arg => arg_target_data E arg true) := by
  intro cmdline
  induction cmdline with
  | nil => intro acc; simp
  | cons a as ih =>
    intro acc
    rw [List.foldl_cons, ih, arg_target_data_require_host E a acc.isEmpty true]
    simp

/-- The clone loop leaves the length alone. -/
theorem clone_loop_length (f : TargetData → TargetData) :
    ∀ (idxs : List Nat) (ts : List TargetData),
      (idxs.foldl (fun targets i => targets.modify f i) ts).length = ts.length := by
  intro idxs
  induction idxs with
  | nil => intro ts; rfl
  | cons i is ih => intro ts; rw [List.foldl_cons, ih, List.length_modify]

/-- The clone loop over the indices `s, ..., s + k - 1` applies `f` to the entries at
these indices and to no other. -/
theorem clone_loop_getElem? (f : TargetData → TargetData) :
    ∀ (k s : Nat) (ts : List TargetData) (j : Nat),
      ((List.range' s k).foldl (fun targets i => targets.modify f i) ts)[j]? =
        if s ≤ j ∧ j < s + k then ts[j]?.map f else ts[j]? := by
  intro k
  induction k with
  | zero =>
    intro s ts j
    have hc : ¬ (s ≤ j ∧ j < s + 0) := by omega
    rw [if_neg hc]
    rfl
  | succ n ih =>
    intro s ts j
    rw [List.range'_succ, List.foldl_cons, ih, List.getElem?_modify]
    by_cases h1 : s = j
    · subst h1
      have hc : ¬ (s + 1 ≤ s ∧ s < s + 1 + n) := by omega
      have hd : s ≤ s ∧ s < s + (n + 1) := by omega
      simp [hc, hd]
    · by_cases h2 : s + 1 ≤ j ∧ j < s + 1 + n
      · have hd : s ≤ j ∧ j < s + (n + 1) := by omega
        cases hj : ts[j]? <;> simp [h1, h2, hd, hj]
      · have hd : ¬ (s ≤ j ∧ j < s + (n + 1)) := by omega
        cases hj : ts[j]? <;> simp [h1, h2, hd, hj]

/-- Setting the clone-all bits makes them read as set. -/
theorem or_and_clone_all (a c : Nat) : (a ||| c) &&& c = c := by
  apply Nat.eq_of_testBit_eq
  intro i
  simp only [Nat.testBit_and, Nat.testBit_or]
  cases a.testBit i <;> cases c.testBit i <;> rfl

/-- What `ensure_jit_target` does from an empty registry when there is a command line and
no conflict: it stores the resolved requests with the clone-all bits set from index 1. -/
theorem ensure_jit_target_cmdline (E : Collaborators) (imaging : Bool)
    (hne : get_cmdline_targets E ≠ [])
    (hmode : (get_cmdline_targets E).length ≤ 1 ∨ imaging = true) :
    ensure_jit_target E imaging [] =
      ⟨.ok (), (List.range' 1 ((get_cmdline_targets E).length - 1)).foldl
        (fun targets i => targets.modify (set_clone_all E) i)
        ((get_cmdline_targets E).map (fun arg => arg_target_data E arg true))⟩ := by
  have hcond : ((get_cmdline_targets E).length > 1 && !imaging) = false := by
    rcases hmode with h | h
    · have : ¬ (get_cmdline_targets E).length > 1 := by omega
      simp [this]
    · simp [h]
  have hemp : (get_cmdline_targets E).isEmpty = false := by
    cases hc : get_cmdline_targets E with
    | nil => exact absurd hc hne
    | cons a as => rfl
  simp only [ensure_jit_target, List.isEmpty_nil, Bool.not_true, hcond, hemp, push_loop_eq,
    List.nil_append, List.length_map]
  rfl

/-! ## Image-backed initialization -/

/-- C1: once the requested target is resolved and the decoded catalog is not empty, every
index that `jl_init_processor_sysimg` (through `sysimg_init_cb`) returns is the greatest
index whose catalog entry has the name of the requested target, and is 0 when no catalog
entry has that name; an index is returned, within as many loop steps as the catalog has
entries plus one, for every catalog that the 32-bit loop counter can run through. -/
theorem C1_select_last_name_match (E : Collaborators) (id : Bytes) (target : TargetData)
    (hreq : requested_target E = .ok target)
    (hne : E.deserialize_target_data id ≠ []) :
    (∀ fuel idx reg, jl_init_processor_sysimg E fuel id [] = ⟨.ok idx, reg⟩ →
      (∀ j t, (E.deserialize_target_data id)[j]? = some t → t.name = target.name →
        j ≤ idx ∧
          ∃ t', (E.deserialize_target_data id)[idx]? = some t' ∧ t'.name = target.name) ∧
      ((∀ t ∈ E.deserialize_target_data id, t.name ≠ target.name) → idx = 0)) ∧
    ((E.deserialize_target_data id).length < 2 ^ 32 →
      ∀ fuel, (E.deserialize_target_data id).length < fuel →
        ∃ idx, (jl_init_processor_sysimg E fuel id []).result = .ok idx) := by
  constructor
  · intro fuel idx reg h
    rw [jl_init_processor_sysimg_nil] at h
    obtain ⟨target', t, hreq', hbest, _, _⟩ := sysimg_init_cb_ok E fuel id [] reg idx h
    rw [hreq] at hreq'
    have htt : target = target' := Except.ok.inj hreq'
    subst htt
    by_cases hlen : (E.deserialize_target_data id).length < 4294967296
    · obtain ⟨h1, h2⟩ := find_best_idx_sound _ _ hlen _ _ _ _ hbest
      constructor
      · intro j t' hj hn
        exact h1 j t' (Nat.zero_le _) hj hn
      · intro hno
        exact h2 (fun j t' _ hj => hno t' (List.getElem?_mem hj))
    · rw [find_best_idx_diverges _ _ (by omega) _ _ _ (by decide)] at hbest
      exact Option.noConfusion hbest
  · intro hlen fuel hfuel
    have hlen' : (E.deserialize_target_data id).length < 4294967296 := by
      simpa using hlen
    obtain ⟨r, hr⟩ := find_best_idx_terminates _ target.name hlen' fuel 0 0 (by omega)
    obtain ⟨h1, h2⟩ := find_best_idx_sound _ _ hlen' _ _ _ _ hr
    have hsome : ∃ t, (E.deserialize_target_data id)[r]? = some t := by
      by_cases hex : ∃ (j : Nat) (t : TargetData),
          (E.deserialize_target_data id)[j]? = some t ∧ t.name = target.name
      · obtain ⟨j, t, hj, hn⟩ := hex
        obtain ⟨_, t', ht', _⟩ := h1 j t (Nat.zero_le _) hj hn
        exact ⟨t', ht'⟩
      · have hr0 : r = 0 := h2 (fun j t _ hj hn => hex ⟨j, t, hj, hn⟩)
        subst hr0
        cases hc : E.deserialize_target_data id with
        | nil => exact absurd hc hne
        | cons a as => exact ⟨a, by simp⟩
    obtain ⟨t, ht⟩ := hsome
    refine ⟨r, ?_⟩
    rw [jl_init_processor_sysimg_nil]
    simp only [sysimg_init_cb, hreq, hr, ht]

/-- C1 on the run of the specification: no command-line request, host name "A" and catalog
names A, B, A; index 2 is returned. -/
theorem C1_select_last_name_match_witness :
    jl_init_processor_sysimg (test_env "A" "" [] [named "A", named "B", named "A"]) 4 [] []
        = ⟨.ok 2, [named "A"]⟩ ∧
      ∃ idx, (jl_init_processor_sysimg
        (test_env "A" "" [] [named "A", named "B", named "A"]) 4 [] []).result = .ok idx :=
  ⟨by decide,
    (C1_select_last_name_match (test_env "A" "" [] [named "A", named "B", named "A"]) []
      (host_target_data (test_env "A" "" [] [named "A", named "B", named "A"])) rfl
      (by decide)).2 (by decide) 4 (by decide)⟩

/-- C2: whenever `jl_init_processor_sysimg` succeeds from an empty registry, the index it
returns is a valid catalog index and the registry afterwards holds exactly the catalog
entry at that index, all four fields included. -/
theorem C2_registry_is_selected_catalog_entry (E : Collaborators) (fuel : Nat) (id : Bytes)
    (idx : Nat) (reg : List TargetData)
    (hok : jl_init_processor_sysimg E fuel id [] = ⟨.ok idx, reg⟩) :
    ∃ h : idx < (E.deserialize_target_data id).length,
      reg = [(E.deserialize_target_data id)[idx]] := by
  rw [jl_init_processor_sysimg_nil] at hok
  obtain ⟨_, t, _, _, ht, hreg⟩ := sysimg_init_cb_ok E fuel id [] reg idx hok
  obtain ⟨hlt, heq⟩ := List.getElem?_eq_some_iff.mp ht
  exact ⟨hlt, by rw [hreg, heq]; rfl⟩

/-- C2 on a run: the request names "B" with features of its own, and the registry ends up
with the catalog entry named "B", not with the resolved request. -/
theorem C2_registry_is_selected_catalog_entry_witness :
    jl_init_processor_sysimg
        (test_env "A" "" [⟨"B", "+x", [1], 0⟩] [named "A", ⟨"B", "", [2], 1⟩]) 3 [] []
        = ⟨.ok 1, [⟨"B", "", [2], 1⟩]⟩ ∧
    ∃ h : 1 < ((test_env "A" "" [⟨"B", "+x", [1], 0⟩]
        [named "A", ⟨"B", "", [2], 1⟩]).deserialize_target_data []).length,
      [(⟨"B", "", [2], 1⟩ : TargetData)] =
        [((test_env "A" "" [⟨"B", "+x", [1], 0⟩]
          [named "A", ⟨"B", "", [2], 1⟩]).deserialize_target_data [])[1]] :=
  ⟨by decide,
    C2_registry_is_selected_catalog_entry
      (test_env "A" "" [⟨"B", "+x", [1], 0⟩] [named "A", ⟨"B", "", [2], 1⟩]) 3 [] 1
      [⟨"B", "", [2], 1⟩] (by decide)⟩

/-- C5: on a registry that is not empty `jl_init_processor_sysimg` ends in the error
"JIT targets already initialized" for every command line, catalog and fuel, and the
registry is left as it was. -/
theorem C5_sysimg_already_initialized (E : Collaborators) (fuel : Nat) (id : Bytes)
    (reg : List TargetData) (hreg : reg ≠ []) :
    jl_init_processor_sysimg E fuel id reg = ⟨.error .AlreadyInitialized, reg⟩ := by
  cases reg with
  | nil => exact absurd rfl hreg
  | cons t ts => rfl

/-- C5 on a registry of one host target, with a command line and a catalog present. -/
theorem C5_sysimg_already_initialized_witness :
    [named "A"] ≠ [] ∧
    jl_init_processor_sysimg (test_env "A" "" [⟨"B", "", [], 0⟩] [named "B"]) 2 [] [named "A"]
      = ⟨.error .AlreadyInitialized, [named "A"]⟩ :=
  ⟨by decide,
    C5_sysimg_already_initialized (test_env "A" "" [⟨"B", "", [], 0⟩] [named "B"]) 2 []
      [named "A"] (by decide)⟩

/-- C7: from an empty registry, a command line of exactly one request whose flags have a
`JL_TARGET_CLONE_ALL` bit makes `jl_init_processor_sysimg` end in the clone_all error,
whatever the catalog bytes and their decoding are and even with no fuel for the catalog
scan; the registry stays empty. -/
theorem C7_clone_all_rejected_before_catalog (E : Collaborators) (fuel : Nat) (id : Bytes)
    (r : TargetArg) (hcmd : get_cmdline_targets E = [r])
    (hflag : r.flags &&& E.JL_TARGET_CLONE_ALL ≠ 0) :
    jl_init_processor_sysimg E fuel id [] = ⟨.error .InvalidFlagForMode, []⟩ := by
  rw [jl_init_processor_sysimg_nil]
  simp [sysimg_init_cb, requested_target, hcmd, hflag]

/-- C7 on a request with flags 2 (the clone-all bit of the test run), zero fuel and an
empty catalog. -/
theorem C7_clone_all_rejected_before_catalog_witness :
    get_cmdline_targets (test_env "A" "" [⟨"B", "", [], 2⟩] []) = [⟨"B", "", [], 2⟩] ∧
    jl_init_processor_sysimg (test_env "A" "" [⟨"B", "", [], 2⟩] []) 0 [7] []
      = ⟨.error .InvalidFlagForMode, []⟩ :=
  ⟨rfl,
    C7_clone_all_rejected_before_catalog (test_env "A" "" [⟨"B", "", [], 2⟩] []) 0 [7]
      ⟨"B", "", [], 2⟩ rfl (by decide)⟩

/-- C8: from an empty registry, a command line of two or more requests makes
`jl_init_processor_sysimg` end in the more-than-one-target error, whatever the flags of
the requests and the catalog are and even with no fuel for the catalog scan; the registry
stays empty. -/
theorem C8_sysimg_conflicting_targets (E : Collaborators) (fuel : Nat) (id : Bytes)
    (hcmd : 2 ≤ (get_cmdline_targets E).length) :
    jl_init_processor_sysimg E fuel id [] = ⟨.error .ConflictingTargets, []⟩ := by
  rw [jl_init_processor_sysimg_nil]
  have h : (get_cmdline_targets E).length > 1 := by omega
  simp [sysimg_init_cb, requested_target, h]

/-- C8 on two requests, the first carrying the clone-all bit, with an empty catalog. -/
theorem C8_sysimg_conflicting_targets_witness :
    2 ≤ (get_cmdline_targets
      (test_env "A" "" [⟨"B", "", [], 2⟩, ⟨"C", "", [], 0⟩] [])).length ∧
    jl_init_processor_sysimg (test_env "A" "" [⟨"B", "", [], 2⟩, ⟨"C", "", [], 0⟩] []) 0 [] []
      = ⟨.error .ConflictingTargets, []⟩ :=
  ⟨by decide,
    C8_sysimg_conflicting_targets (test_env "A" "" [⟨"B", "", [], 2⟩, ⟨"C", "", [], 0⟩] [])
      0 [] (by decide)⟩

/-! ## Standalone initialization -/

/-- With two or more requests and `imaging` false, `ensure_jit_target` ends in the
more-than-one-target error before it touches the registry. -/
theorem ensure_jit_target_conflict (E : Collaborators)
    (hcmd : 2 ≤ (get_cmdline_targets E).length) :
    ensure_jit_target E false [] = ⟨.error .ConflictingTargets, []⟩ := by
  have h : (get_cmdline_targets E).length > 1 := by omega
  simp [ensure_jit_target, h]

/-- C3: from an empty registry and a command line of two or more requests,
`ensure_jit_target false` ends in the more-than-one-target error, while
`ensure_jit_target true` succeeds and leaves one registry entry per request. -/
theorem C3_conflict_only_outside_imaging (E : Collaborators)
    (hcmd : 2 ≤ (get_cmdline_targets E).length) :
    ensure_jit_target E false [] = ⟨.error .ConflictingTargets, []⟩ ∧
    ∃ reg, ensure_jit_target E true [] = ⟨.ok (), reg⟩ ∧
      reg.length = (get_cmdline_targets E).length ∧ reg ≠ [] := by
  refine ⟨ensure_jit_target_conflict E hcmd, ?_⟩
  have hne : get_cmdline_targets E ≠ [] := by
    intro h
    rw [h] at hcmd
    simp at hcmd
  refine ⟨_, ensure_jit_target_cmdline E true hne (Or.inr rfl), ?_, ?_⟩
  · rw [clone_loop_length, List.length_map]
  · intro h
    have hl := congrArg List.length h
    rw [clone_loop_length, List.length_map, List.length_nil] at hl
    omega

/-- C3 on the requests "B" and "C". -/
theorem C3_conflict_only_outside_imaging_witness :
    2 ≤ (get_cmdline_targets
      (test_env "A" "" [⟨"B", "", [], 0⟩, ⟨"C", "", [], 0⟩] [])).length ∧
    ensure_jit_target (test_env "A" "" [⟨"B", "", [], 0⟩, ⟨"C", "", [], 0⟩] []) true []
      = ⟨.ok (), [⟨"B", "", [], 0⟩, ⟨"C", "", [], 2⟩]⟩ ∧
    ensure_jit_target (test_env "A" "" [⟨"B", "", [], 0⟩, ⟨"C", "", [], 0⟩] []) false []
      = ⟨.error .ConflictingTargets, []⟩ :=
  ⟨by decide, by decide,
    (C3_conflict_only_outside_imaging
      (test_env "A" "" [⟨"B", "", [], 0⟩, ⟨"C", "", [], 0⟩] []) (by decide)).1⟩

/-- C4: when `ensure_jit_target` succeeds from an empty registry on a command line of
k >= 1 requests, the registry has k entries; the entry at index i has the name and the
ext_features of the i-th request resolved by `arg_target_data`; from index 1 on its flags
are those of the request with `JL_TARGET_CLONE_ALL` or-ed in, so the bits read as set; at
index 0 the flags are exactly those of the request. -/
theorem C4_standalone_registry_contents (E : Collaborators) (imaging : Bool)
    (reg : List TargetData)
    (hk : 1 ≤ (get_cmdline_targets E).length)
    (hok : ensure_jit_target E imaging [] = ⟨.ok (), reg⟩) :
    reg.length = (get_cmdline_targets E).length ∧
    ∀ (i : Nat) (r : TargetArg), (get_cmdline_targets E)[i]? = some r →
      ∃ t, reg[i]? = some t ∧
        (∀ b, t.name = (arg_target_data E r b).name) ∧
        (∀ b, t.ext_features = (arg_target_data E r b).ext_features) ∧
        (1 ≤ i → t.flags = r.flags ||| E.JL_TARGET_CLONE_ALL) ∧
        (1 ≤ i → t.flags &&& E.JL_TARGET_CLONE_ALL = E.JL_TARGET_CLONE_ALL) ∧
        (i = 0 → t.flags = r.flags) := by
  have hne : get_cmdline_targets E ≠ [] := by
    intro h
    rw [h] at hk
    simp at hk
  have hmode : (get_cmdline_targets E).length ≤ 1 ∨ imaging = true := by
    by_contra hcon
    have h2 : 2 ≤ (get_cmdline_targets E).length := by omega
    have hf : imaging = false := by
      cases imaging with
      | false => rfl
      | true => exact absurd (Or.inr rfl) hcon
    subst hf
    rw [ensure_jit_target_conflict E h2] at hok
    simp at hok
  rw [ensure_jit_target_cmdline E imaging hne hmode] at hok
  simp only [Outcome.mk.injEq, true_and] at hok
  subst hok
  refine ⟨by rw [clone_loop_length, List.length_map], ?_⟩
  intro i r hr
  have hi : i < (get_cmdline_targets E).length := (List.getElem?_eq_some_iff.mp hr).1
  have hflags : ∀ b, (arg_target_data E r b).flags = r.flags := by
    intro b
    by_cases hn : r.toTargetData.name = "native"
    · simp only [arg_target_data, if_pos hn]
      rfl
    · simp only [arg_target_data, if_neg hn]
      rfl
  rw [clone_loop_getElem?, List.getElem?_map, hr]
  by_cases h1 : 1 ≤ i
  · have hc : 1 ≤ i ∧ i < 1 + ((get_cmdline_targets E).length - 1) := by omega
    rw [if_pos hc]
    refine ⟨set_clone_all E (arg_target_data E r true), rfl, fun b => rfl, fun b => rfl,
      ?_, ?_, ?_⟩
    · intro _
      show (arg_target_data E r true).flags ||| E.JL_TARGET_CLONE_ALL = _
      rw [hflags]
    · intro _
      exact or_and_clone_all _ _
    · intro h0
      omega
  · have hc : ¬ (1 ≤ i ∧ i < 1 + ((get_cmdline_targets E).length - 1)) := by omega
    rw [if_neg hc]
    refine ⟨arg_target_data E r true, rfl, fun b => rfl, fun b => rfl, ?_, ?_, ?_⟩
    · intro h
      exact absurd h h1
    · intro h
      exact absurd h h1
    · intro _
      exact hflags true

/-- C4 on three requests under image generation: "native" with flags 0, "B" with flags 0
and "C" with flags 1; the host is "A" with features "+f". -/
theorem C4_standalone_registry_contents_witness :
    ensure_jit_target (test_env "A" "+f"
        [⟨"native", "+x", [], 0⟩, ⟨"B", "", [], 0⟩, ⟨"C", "+y", [], 1⟩] []) true []
      = ⟨.ok (), [⟨"A", "+x,+f", [], 0⟩, ⟨"B", "", [], 2⟩, ⟨"C", "+y", [], 3⟩]⟩ ∧
    [(⟨"A", "+x,+f", [], 0⟩ : TargetData), ⟨"B", "", [], 2⟩, ⟨"C", "+y", [], 3⟩].length =
      (get_cmdline_targets (test_env "A" "+f"
        [⟨"native", "+x", [], 0⟩, ⟨"B", "", [], 0⟩, ⟨"C", "+y", [], 1⟩] [])).length :=
  ⟨by decide,
    (C4_standalone_registry_contents (test_env "A" "+f"
        [⟨"native", "+x", [], 0⟩, ⟨"B", "", [], 0⟩, ⟨"C", "+y", [], 1⟩] []) true
      [⟨"A", "+x,+f", [], 0⟩, ⟨"B", "", [], 2⟩, ⟨"C", "+y", [], 3⟩]
      (by decide) (by decide)).1⟩

/-- C6, as stated, fails: after a first `ensure_jit_target` has filled the registry with
the host target, a second call (with either value of `imaging`) returns normally instead
of ending in the already-initialized error. -/
theorem C6_counterexample :
    (ensure_jit_target (test_env "A" "" [] []) false []).jit_targets = [named "A"] ∧
    (ensure_jit_target (test_env "A" "" [] []) false [named "A"]).result = .ok () ∧
    (ensure_jit_target (test_env "A" "" [] []) true [named "A"]).result = .ok () ∧
    (ensure_jit_target (test_env "A" "" [] []) false [named "A"]).result
      ≠ .error .AlreadyInitialized := by
  decide

/-- C6, amended: on a registry that is not empty `ensure_jit_target` returns at its first
statement, for either value of `imaging` and every command line: it raises no error and
leaves the registry as it was. -/
theorem C6_ensure_is_idempotent (E : Collaborators) (imaging : Bool)
    (reg : List TargetData) (hreg : reg ≠ []) :
    ensure_jit_target E imaging reg = ⟨.ok (), reg⟩ := by
  cases reg with
  | nil => exact absurd rfl hreg
  | cons t ts => rfl

/-- C6, amended, on a registry of one target and a command line of two requests. -/
theorem C6_ensure_is_idempotent_witness :
    [named "A"] ≠ [] ∧
    ensure_jit_target (test_env "A" "" [⟨"B", "", [], 0⟩, ⟨"C", "", [], 2⟩] []) false
      [named "A"] = ⟨.ok (), [named "A"]⟩ :=
  ⟨by decide,
    C6_ensure_is_idempotent (test_env "A" "" [⟨"B", "", [], 0⟩, ⟨"C", "", [], 2⟩] []) false
      [named "A"] (by decide)⟩

/-- C9: with no command-line request and an empty registry, `ensure_jit_target` succeeds
for both values of `imaging` and leaves exactly the host target in the registry: one
entry, named after the host, with flags 0 and so without a `JL_TARGET_CLONE_ALL` bit. -/
theorem C9_no_request_gives_host (E : Collaborators) (imaging : Bool)
    (hcmd : get_cmdline_targets E = []) :
    ensure_jit_target E imaging [] = ⟨.ok (), [host_target_data E]⟩ ∧
    [host_target_data E].length = 1 ∧
    (host_target_data E).name = E.jl_get_cpu_name_llvm ∧
    (host_target_data E).flags = 0 ∧
    (host_target_data E).flags &&& E.JL_TARGET_CLONE_ALL = 0 := by
  refine ⟨?_, rfl, rfl, rfl, ?_⟩
  · simp [ensure_jit_target, hcmd]
  · show 0 &&& E.JL_TARGET_CLONE_ALL = 0
    simp

/-- C9 on the host "A" with features "+f". -/
theorem C9_no_request_gives_host_witness :
    get_cmdline_targets (test_env "A" "+f" [] []) = [] ∧
    ensure_jit_target (test_env "A" "+f" [] []) false [] = ⟨.ok (), [⟨"A", "+f", [], 0⟩]⟩ :=
  ⟨rfl, (C9_no_request_gives_host (test_env "A" "+f" [] []) false rfl).1⟩

/-! ## The target resolver -/

/-- C10: `arg_target_data` is a total function that agrees with the resolution the
specification describes: for the name "native" the result is named after the host and its
ext_features are the request's with the host features appended after them; for any other
name the name and the ext_features are the request's; the flags are the request's in both
cases; and the argument `require_host` changes nothing. -/
theorem C10_arg_target_data_refines_resolve (E : Collaborators) (r : TargetArg)
    (require_host : Bool) :
    arg_target_data E r require_host = resolve_spec E r ∧
    (r.name = "native" →
      (arg_target_data E r require_host).name = E.jl_get_cpu_name_llvm ∧
      (arg_target_data E r require_host).ext_features =
        E.append_ext_features r.ext_features E.jl_get_cpu_features_llvm) ∧
    (r.name ≠ "native" →
      (arg_target_data E r require_host).name = r.name ∧
      (arg_target_data E r require_host).ext_features = r.ext_features) ∧
    (arg_target_data E r require_host).flags = r.flags ∧
    arg_target_data E r require_host = arg_target_data E r (!require_host) := by
  have hspec : arg_target_data E r require_host = resolve_spec E r := by
    by_cases hn : r.name = "native"
    · simp [arg_target_data, resolve_spec, TargetArg.toTargetData, host_cpu_name, hn]
    · simp [arg_target_data, resolve_spec, TargetArg.toTargetData, hn]
  refine ⟨hspec, ?_, ?_, ?_, rfl⟩
  · intro hn
    rw [hspec]
    simp [resolve_spec, hn]
  · intro hn
    rw [hspec]
    simp [resolve_spec, hn]
  · rw [hspec]
    unfold resolve_spec
    split <;> rfl

/-- C10 on the host "A" with features "+f": the request "native" with ext_features "+x"
and flags 5 resolves to the name "A" with ext_features "+x,+f", the request "B" is
returned as it is. -/
theorem C10_arg_target_data_refines_resolve_witness :
    arg_target_data (test_env "A" "+f" [] []) ⟨"native", "+x", [], 5⟩ true
      = ⟨"A", "+x,+f", [], 5⟩ ∧
    arg_target_data (test_env "A" "+f" [] []) ⟨"B", "+x", [], 5⟩ false
      = ⟨"B", "+x", [], 5⟩ ∧
    (arg_target_data (test_env "A" "+f" [] []) ⟨"native", "+x", [], 5⟩ true).name = "A" :=
  ⟨by decide, by decide,
    ((C10_arg_target_data_refines_resolve (test_env "A" "+f" [] [])
      ⟨"native", "+x", [], 5⟩ true).2.1 rfl).1⟩

/-- C11: `host_target_data()` and `arg_target_data` applied to the request that names
"native" with no extra features and zero flags agree on the name (the host name, which
every request naming "native" resolves to), on the features and on the flags, which are
0; the ext_features of the former are the host features, those of the latter are the host
features appended to the empty text, so that the two descriptors are one and the same as
soon as appending to the empty text returns what was appended. -/
theorem C11_host_target_data_resolves_sentinel (E : Collaborators) (require_host : Bool) :
    (∀ r : TargetArg, r.name = "native" →
      (arg_target_data E r require_host).name = (host_target_data E).name) ∧
    (arg_target_data E sentinel_request require_host).name = E.jl_get_cpu_name_llvm ∧
    (host_target_data E).name = E.jl_get_cpu_name_llvm ∧
    (arg_target_data E sentinel_request require_host).features
      = (host_target_data E).features ∧
    (arg_target_data E sentinel_request require_host).flags = 0 ∧
    (host_target_data E).flags = 0 ∧
    (arg_target_data E sentinel_request require_host).ext_features
      = E.append_ext_features "" E.jl_get_cpu_features_llvm ∧
    (host_target_data E).ext_features = E.jl_get_cpu_features_llvm ∧
    (appends_host_features_to_empty E →
      arg_target_data E sentinel_request require_host = host_target_data E) := by
  refine ⟨?_, rfl, rfl, rfl, rfl, rfl, rfl, rfl, ?_⟩
  · intro r hr
    have hn : r.toTargetData.name = "native" := hr
    simp only [arg_target_data, if_pos hn]
    rfl
  · intro happ
    unfold appends_host_features_to_empty at happ
    show ({ name := host_cpu_name E,
            ext_features := E.append_ext_features "" E.jl_get_cpu_features_llvm,
            features := [], flags := 0 } : TargetData) = host_target_data E
    rw [happ]
    rfl

/-- C11 on the host "A" with features "+f,+g" and the comma-separating append of the test
run. -/
theorem C11_host_target_data_resolves_sentinel_witness :
    appends_host_features_to_empty (test_env "A" "+f,+g" [] []) ∧
    host_target_data (test_env "A" "+f,+g" [] []) = ⟨"A", "+f,+g", [], 0⟩ ∧
    arg_target_data (test_env "A" "+f,+g" [] []) sentinel_request true
      = host_target_data (test_env "A" "+f,+g" [] []) :=
  ⟨by decide, by decide,
    (C11_host_target_data_resolves_sentinel (test_env "A" "+f,+g" [] []) true).2.2.2.2.2.2.2.2
      (by decide)⟩

/-! ## The backend descriptor formatter -/

/-- C12: `get_llvm_target_str` and `get_llvm_target_vec` return the name of the descriptor
unchanged as first component; the base feature sequence of `get_llvm_target_noext` is
empty, and the second component is that empty sequence (joined, for the string form) with
the ext_features appended by `append_ext_features`. -/
theorem C12_format_is_name_and_appended_ext_features (E : Collaborators) (d : TargetData) :
    get_llvm_target_noext d = (d.name, []) ∧
    get_llvm_target_vec E d = (d.name, E.append_ext_features_vec [] d.ext_features) ∧
    get_llvm_target_str E d
      = (d.name, E.append_ext_features (E.join_feature_strs []) d.ext_features) :=
  ⟨rfl, rfl, rfl⟩

/-! ## The read accessors -/

/-- On a registry that is not empty `ensure_jit_target` returns at once. -/
theorem ensure_jit_target_of_ne_nil (E : Collaborators) (imaging : Bool)
    (reg : List TargetData) (hreg : reg ≠ []) :
    ensure_jit_target E imaging reg = ⟨.ok (), reg⟩ := by
  cases reg with
  | nil => exact absurd rfl hreg
  | cons t ts => rfl

/-- On a registry with first entry `t`, `jl_get_llvm_target` formats `t`. -/
theorem jl_get_llvm_target_cons (E : Collaborators) (imaging : Bool) (index : Nat)
    (t : TargetData) (ts : List TargetData) :
    jl_get_llvm_target E imaging index (t :: ts)
      = ⟨.ok (get_llvm_target_vec E t), t :: ts⟩ := by
  simp [jl_get_llvm_target, ensure_jit_target]

/-- C13: on a registry that is not empty `jl_get_llvm_target` returns
`get_llvm_target_vec(jit_targets[0])` and leaves the registry alone, so that two calls
with different index arguments return the same, however many targets there are. -/
theorem C13_current_target_ignores_index (E : Collaborators) (imaging : Bool) (i j : Nat)
    (reg : List TargetData) (hreg : reg ≠ []) :
    jl_get_llvm_target E imaging i reg = jl_get_llvm_target E imaging j reg ∧
    ∃ t, reg[0]? = some t ∧
      jl_get_llvm_target E imaging i reg = ⟨.ok (get_llvm_target_vec E t), reg⟩ := by
  cases reg with
  | nil => exact absurd rfl hreg
  | cons t ts =>
    exact ⟨by rw [jl_get_llvm_target_cons, jl_get_llvm_target_cons], t, by simp,
      jl_get_llvm_target_cons E imaging i t ts⟩

/-- C13 on a registry of two targets and the indices 0 and 1. -/
theorem C13_current_target_ignores_index_witness :
    jl_get_llvm_target (test_env "A" "" [] []) false 1 [⟨"B", "+x", [], 0⟩, ⟨"C", "+y", [], 2⟩]
      = ⟨.ok ("B", ["+x"]), [⟨"B", "+x", [], 0⟩, ⟨"C", "+y", [], 2⟩]⟩ ∧
    jl_get_llvm_target (test_env "A" "" [] []) false 0 [⟨"B", "+x", [], 0⟩, ⟨"C", "+y", [], 2⟩]
      = jl_get_llvm_target (test_env "A" "" [] []) false 1
          [⟨"B", "+x", [], 0⟩, ⟨"C", "+y", [], 2⟩] :=
  ⟨by decide,
    (C13_current_target_ignores_index (test_env "A" "" [] []) false 0 1
      [⟨"B", "+x", [], 0⟩, ⟨"C", "+y", [], 2⟩] (by decide)).1⟩

/-- From an empty registry `ensure_jit_target` either ends in the more-than-one-target
error, leaving the registry empty, or succeeds and leaves it with a first entry. -/
theorem ensure_jit_target_nil_cases (E : Collaborators) (imaging : Bool) :
    ensure_jit_target E imaging [] = ⟨.error .ConflictingTargets, []⟩ ∨
    ∃ t ts, ensure_jit_target E imaging [] = ⟨.ok (), t :: ts⟩ := by
  by_cases hcmd : get_cmdline_targets E = []
  · right
    exact ⟨host_target_data E, [], by simp [ensure_jit_target, hcmd]⟩
  · by_cases hmode : (get_cmdline_targets E).length ≤ 1 ∨ imaging = true
    · right
      have hrun := ensure_jit_target_cmdline E imaging hcmd hmode
      have hpos : 0 < (get_cmdline_targets E).length := List.length_pos.mpr hcmd
      cases hc : (List.range' 1 ((get_cmdline_targets E).length - 1)).foldl
          (fun targets i => targets.modify (set_clone_all E) i)
          ((get_cmdline_targets E).map (fun arg => arg_target_data E arg true)) with
      | nil =>
        have hl := congrArg List.length hc
        rw [clone_loop_length, List.length_map, List.length_nil] at hl
        omega
      | cons t ts =>
        rw [hc] at hrun
        exact ⟨t, ts, hrun⟩
    · left
      have h2 : 2 ≤ (get_cmdline_targets E).length := by omega
      have hf : imaging = false := by
        cases imaging with
        | false => rfl
        | true => exact absurd (Or.inr rfl) hmode
      subst hf
      exact ensure_jit_target_conflict E h2

/-- C14, as stated, fails: on an empty registry and a command line of two requests,
`jl_get_llvm_target` called with `imaging` true initializes the registry and returns the
first target, while `ensure_jit_target false` ends in the more-than-one-target error. -/
theorem C14_counterexample :
    jl_get_llvm_target (test_env "A" "" [⟨"B", "", [], 0⟩, ⟨"C", "", [], 0⟩] []) true 0 []
      = ⟨.ok ("B", []), [⟨"B", "", [], 0⟩, ⟨"C", "", [], 2⟩]⟩ ∧
    ensure_jit_target (test_env "A" "" [⟨"B", "", [], 0⟩, ⟨"C", "", [], 0⟩] []) false []
      = ⟨.error .ConflictingTargets, []⟩ := by
  decide

/-- C14, amended: on an empty registry `jl_get_llvm_target` runs `ensure_jit_target` with
the `imaging` argument of its caller.  The registry afterwards is the one that
`ensure_jit_target imaging` leaves; an error of `ensure_jit_target imaging` is the error
of the call; after a success the call returns `get_llvm_target_vec` of the first entry of
the registry, which exists; and the call never ends in the not-initialized error nor in a
read past the end of the registry. -/
theorem C14_lazy_init_with_caller_imaging (E : Collaborators) (imaging : Bool) (index : Nat) :
    (jl_get_llvm_target E imaging index []).jit_targets
      = (ensure_jit_target E imaging []).jit_targets ∧
    (∀ e, (ensure_jit_target E imaging []).result = .error e →
      (jl_get_llvm_target E imaging index []).result = .error e) ∧
    ((ensure_jit_target E imaging []).result = .ok () →
      ∃ t, (ensure_jit_target E imaging []).jit_targets[0]? = some t ∧
        (jl_get_llvm_target E imaging index []).result = .ok (get_llvm_target_vec E t)) ∧
    (jl_get_llvm_target E imaging index []).result ≠ .error .NotInitialized ∧
    (jl_get_llvm_target E imaging index []).result ≠ .error .RegistryOutOfRange := by
  rcases ensure_jit_target_nil_cases E imaging with h | ⟨t, ts, h⟩
  · have hget : jl_get_llvm_target E imaging index []
        = ⟨.error .ConflictingTargets, []⟩ := by
      simp only [jl_get_llvm_target, h]
    rw [hget, h]
    refine ⟨rfl, ?_, ?_, ?_, ?_⟩
    · intro e he
      have hee : Error.ConflictingTargets = e := Result.error.inj he
      rw [hee]
    · intro hok
      simp at hok
    · simp
    · simp
  · have hget : jl_get_llvm_target E imaging index []
        = ⟨.ok (get_llvm_target_vec E t), t :: ts⟩ := by
      simp [jl_get_llvm_target, h]
    rw [hget, h]
    refine ⟨rfl, ?_, ?_, ?_, ?_⟩
    · intro e he
      simp at he
    · intro _
      exact ⟨t, by simp, rfl⟩
    · simp
    · simp

/-- C14, amended, on a command line of two requests: with `imaging` false the error of
`ensure_jit_target false` is the error of the call. -/
theorem C14_lazy_init_with_caller_imaging_witness :
    (ensure_jit_target (test_env "A" "" [⟨"B", "", [], 0⟩, ⟨"C", "", [], 0⟩] []) false
      []).result = .error .ConflictingTargets ∧
    (jl_get_llvm_target (test_env "A" "" [⟨"B", "", [], 0⟩, ⟨"C", "", [], 0⟩] []) false 3
      []).result = .error .ConflictingTargets :=
  ⟨by decide,
    (C14_lazy_init_with_caller_imaging
      (test_env "A" "" [⟨"B", "", [], 0⟩, ⟨"C", "", [], 0⟩] []) false 3).2.1
      .ConflictingTargets (by decide)⟩

/-- The loop of `jl_get_llvm_clone_targets` builds one element per target, in order. -/
theorem clone_targets_loop_eq (E : Collaborators) :
    ∀ (targets : List TargetData) (acc : List jl_target_spec_t),
      targets.foldl (fun res target => res ++ [clone_target_spec E target]) acc
        = acc ++ targets.map (clone_target_spec E) := by
  intro targets
  induction targets with
  | nil => intro acc; simp
  | cons t ts ih =>
    intro acc
    rw [List.foldl_cons, ih]
    simp

/-- A string without a NUL character is its own C string. -/
theorem c_str_of_no_nul (s : String) (h : ∀ c ∈ s.data, c ≠ Char.ofNat 0) : c_str s = s := by
  unfold c_str
  have hl : s.data.takeWhile (fun c => c != Char.ofNat 0) = s.data := by
    rw [List.takeWhile_eq_self_iff]
    intro c hc
    simpa using h c hc
  rw [hl]

/-- C15: `jl_get_llvm_clone_targets` ends in the not-initialized error exactly when the
registry is empty, and never changes the registry.  On a registry that is not empty it
returns one element per target, in registry order; the element for the target `t` has the
name of `t` as cpu_name, the feature string of `get_llvm_target_str t` as cpu_features,
the encoding of the name, the features and the ext_features of `t` as data (name and
ext_features go to the encoder as C strings, which for text without a NUL character is
the text itself) and the flags of `t` as flags. -/
theorem C15_clone_targets_mirror_registry (E : Collaborators) (index : Nat)
    (reg : List TargetData) :
    ((jl_get_llvm_clone_targets E index reg).result = .error .NotInitialized ↔ reg = []) ∧
    (jl_get_llvm_clone_targets E index reg).jit_targets = reg ∧
    (reg ≠ [] →
      ∃ res, (jl_get_llvm_clone_targets E index reg).result = .ok res ∧
        res.length = reg.length ∧
        ∀ (i : Nat) (t : TargetData), reg[i]? = some t →
          ∃ ele, res[i]? = some ele ∧
            ele.cpu_name = t.name ∧
            ele.cpu_features = (get_llvm_target_str E t).2 ∧
            ele.data
              = E.serialize_target_data (c_str t.name) t.features (c_str t.ext_features) ∧
            (c_str t.name = t.name → c_str t.ext_features = t.ext_features →
              ele.data = E.serialize_target_data t.name t.features t.ext_features) ∧
            ele.flags = t.flags) := by
  cases reg with
  | nil =>
    refine ⟨⟨fun _ => rfl, fun _ => rfl⟩, rfl, fun h => absurd rfl h⟩
  | cons a as =>
    have hrun : jl_get_llvm_clone_targets E index (a :: as)
        = ⟨.ok ((a :: as).map (clone_target_spec E)), a :: as⟩ := by
      simp only [jl_get_llvm_clone_targets, List.isEmpty_cons, Bool.false_eq_true, if_false,
        clone_targets_loop_eq, List.nil_append]
    rw [hrun]
    refine ⟨⟨fun h => ?_, fun h => ?_⟩, rfl, fun _ => ?_⟩
    · simp at h
    · simp at h
    · refine ⟨_, rfl, List.length_map _ _, ?_⟩
      intro i t hi
      refine ⟨clone_target_spec E t, ?_, rfl, rfl, rfl, ?_, rfl⟩
      · rw [List.getElem?_map, hi]
        rfl
      · intro h1 h2
        show E.serialize_target_data (c_str t.name) t.features (c_str t.ext_features) = _
        rw [h1, h2]

/-- C15 on a registry of two targets, and on the empty registry. -/
theorem C15_clone_targets_mirror_registry_witness :
    jl_get_llvm_clone_targets (test_env "A" "" [] []) 0
        [⟨"B", "+x", [7], 0⟩, ⟨"C", "", [], 2⟩]
      = ⟨.ok [⟨"B", "+x", [1, 2, 7], 0⟩, ⟨"C", "", [1, 0], 2⟩],
          [⟨"B", "+x", [7], 0⟩, ⟨"C", "", [], 2⟩]⟩ ∧
    (jl_get_llvm_clone_targets (test_env "A" "" [] []) 0 []).result
      = .error .NotInitialized :=
  ⟨by decide,
    (C15_clone_targets_mirror_registry (test_env "A" "" [] []) 0 []).1.mpr rfl⟩

/-- C16: `jl_get_llvm_disasm_target` leaves the registry alone and returns the same pair
for every registry and every index argument: the host name, as the C string it is handed
over as, and the feature string of `get_llvm_target_str(host_target_data())`, which is
the empty base sequence joined with the host features appended.  For a host name without
a NUL character the pair is `get_llvm_target_str(host_target_data())`. -/
theorem C16_disasm_target_is_host (E : Collaborators) (index : Nat) (reg : List TargetData) :
    (jl_get_llvm_disasm_target E index reg).jit_targets = reg ∧
    (∀ (index' : Nat) (reg' : List TargetData),
      (jl_get_llvm_disasm_target E index' reg').result
        = (jl_get_llvm_disasm_target E index reg).result) ∧
    (jl_get_llvm_disasm_target E index reg).result
      = .ok (c_str E.jl_get_cpu_name_llvm, (get_llvm_target_str E (host_target_data E)).2) ∧
    (get_llvm_target_str E (host_target_data E)).2
      = E.append_ext_features (E.join_feature_strs []) E.jl_get_cpu_features_llvm ∧
    (c_str E.jl_get_cpu_name_llvm = E.jl_get_cpu_name_llvm →
      (jl_get_llvm_disasm_target E index reg).result
        = .ok (get_llvm_target_str E (host_target_data E))) := by
  refine ⟨rfl, fun _ _ => rfl, rfl, rfl, ?_⟩
  intro h
  show Result.ok (c_str E.jl_get_cpu_name_llvm,
      (get_llvm_target_str E (host_target_data E)).2) = _
  rw [h]
  rfl

/-- C16 on the host "A" with features "+f", a registry holding the target "B" and the
index 5. -/
theorem C16_disasm_target_is_host_witness :
    c_str (test_env "A" "+f" [] []).jl_get_cpu_name_llvm = "A" ∧
    jl_get_llvm_disasm_target (test_env "A" "+f" [] []) 5 [named "B"]
      = ⟨.ok ("A", "+f"), [named "B"]⟩ ∧
    (jl_get_llvm_disasm_target (test_env "A" "+f" [] []) 5 [named "B"]).result
      = .ok (get_llvm_target_str (test_env "A" "+f" [] [])
          (host_target_data (test_env "A" "+f" [] []))) :=
  ⟨by decide, by decide,
    (C16_disasm_target_is_host (test_env "A" "+f" [] []) 5 [named "B"]).2.2.2.2 (by decide)⟩

/-! ## The registry as a whole -/

/-- The callback either succeeds or leaves the registry as it found it. -/
theorem sysimg_init_cb_ok_or_unchanged (E : Collaborators) (fuel : Nat) (id : Bytes)
    (reg : List TargetData) :
    (∃ idx, (sysimg_init_cb E fuel id reg).result = .ok idx) ∨
    (sysimg_init_cb E fuel id reg).jit_targets = reg := by
  unfold sysimg_init_cb
  split
  · right; rfl
  · simp only
    split
    · right; rfl
    · split
      · right; rfl
      · left; exact ⟨_, rfl⟩

/-- The image entry point either succeeds or leaves the registry as it found it. -/
theorem jl_init_processor_sysimg_ok_or_unchanged (E : Collaborators) (fuel : Nat)
    (id : Bytes) (reg : List TargetData) :
    (∃ idx, (jl_init_processor_sysimg E fuel id reg).result = .ok idx) ∨
    (jl_init_processor_sysimg E fuel id reg).jit_targets = reg := by
  cases reg with
  | nil =>
    rw [jl_init_processor_sysimg_nil]
    exact sysimg_init_cb_ok_or_unchanged E fuel id []
  | cons t ts => right; rfl

/-- A run of `ensure_jit_target` that ends in an error leaves the registry as it was. -/
theorem ensure_jit_target_error_unchanged (E : Collaborators) (imaging : Bool)
    (reg : List TargetData) (e : Error)
    (h : (ensure_jit_target E imaging reg).result = .error e) :
    (ensure_jit_target E imaging reg).jit_targets = reg := by
  cases reg with
  | nil =>
    rcases ensure_jit_target_nil_cases E imaging with hc | ⟨t, ts, hc⟩
    · rw [hc]
    · rw [hc] at h
      simp at h
  | cons t ts => rfl

/-- C17: whenever `ensure_jit_target`, `jl_init_processor_sysimg` or the callback
`sysimg_init_cb` does not return normally (an error of `jl_error`, the read past the end
of an empty catalog, or a catalog scan that does not end), the registry after the call is
the registry before the call, whatever the registry, the command line, `imaging` and the
catalog are; a failed initialization of the empty registry leaves it empty. -/
theorem C17_failed_initialization_keeps_registry (E : Collaborators) (imaging : Bool)
    (fuel : Nat) (id : Bytes) (reg : List TargetData) :
    ((∀ u, (ensure_jit_target E imaging reg).result ≠ .ok u) →
      (ensure_jit_target E imaging reg).jit_targets = reg) ∧
    ((∀ idx, (jl_init_processor_sysimg E fuel id reg).result ≠ .ok idx) →
      (jl_init_processor_sysimg E fuel id reg).jit_targets = reg) ∧
    ((∀ idx, (sysimg_init_cb E fuel id reg).result ≠ .ok idx) →
      (sysimg_init_cb E fuel id reg).jit_targets = reg) ∧
    (∀ e, (ensure_jit_target E imaging reg).result = .error e →
      (ensure_jit_target E imaging reg).jit_targets = reg) ∧
    (∀ e, (jl_init_processor_sysimg E fuel id reg).result = .error e →
      (jl_init_processor_sysimg E fuel id reg).jit_targets = reg) ∧
    (∀ e, (jl_init_processor_sysimg E fuel id []).result = .error e →
      (jl_init_processor_sysimg E fuel id []).jit_targets = []) := by
  have hens : (∀ u, (ensure_jit_target E imaging reg).result ≠ .ok u) →
      (ensure_jit_target E imaging reg).jit_targets = reg := by
    intro hno
    cases hres : (ensure_jit_target E imaging reg).result with
    | ok u => exact absurd hres (hno u)
    | error e => exact ensure_jit_target_error_unchanged E imaging reg e hres
    | out_of_fuel =>
      cases reg with
      | nil =>
        rcases ensure_jit_target_nil_cases E imaging with hc | ⟨t, ts, hc⟩
        · rw [hc]
        · rw [hc] at hres
          simp at hres
      | cons t ts => rfl
  have hinit : ∀ reg' : List TargetData,
      (∀ idx, (jl_init_processor_sysimg E fuel id reg').result ≠ .ok idx) →
      (jl_init_processor_sysimg E fuel id reg').jit_targets = reg' := by
    intro reg' hno
    rcases jl_init_processor_sysimg_ok_or_unchanged E fuel id reg' with ⟨idx, hok⟩ | hun
    · exact absurd hok (hno idx)
    · exact hun
  refine ⟨hens, hinit reg, ?_, ?_, ?_, ?_⟩
  · intro hno
    rcases sysimg_init_cb_ok_or_unchanged E fuel id reg with ⟨idx, hok⟩ | hun
    · exact absurd hok (hno idx)
    · exact hun
  · intro e he
    exact ensure_jit_target_error_unchanged E imaging reg e he
  · intro e he
    apply hinit reg
    intro idx hok
    rw [hok] at he
    simp at he
  · intro e he
    apply hinit []
    intro idx hok
    rw [hok] at he
    simp at he

/-- C17 on three failing calls from the empty registry: two requests without `imaging`,
one request with the clone-all bit, and an empty catalog. -/
theorem C17_failed_initialization_keeps_registry_witness :
    ensure_jit_target (test_env "A" "" [⟨"B", "", [], 0⟩, ⟨"C", "", [], 0⟩] []) false []
      = ⟨.error .ConflictingTargets, []⟩ ∧
    jl_init_processor_sysimg (test_env "A" "" [⟨"B", "", [], 2⟩] [named "B"]) 2 [] []
      = ⟨.error .InvalidFlagForMode, []⟩ ∧
    (jl_init_processor_sysimg (test_env "A" "" [] []) 1 [] []).result
      = .error .CatalogOutOfRange ∧
    (jl_init_processor_sysimg (test_env "A" "" [] []) 1 [] []).jit_targets = [] :=
  ⟨by decide, by decide, by decide,
    (C17_failed_initialization_keeps_registry (test_env "A" "" [] []) false 1 []
      []).2.2.2.2.2 .CatalogOutOfRange (by decide)⟩

/-- On a registry that is not empty no call changes the registry. -/
theorem registry_after_of_ne_nil (E : Collaborators) (call : Call) (L : List TargetData)
    (hL : L ≠ []) : registry_after E call L = L := by
  cases L with
  | nil => exact absurd rfl hL
  | cons t ts =>
    cases call with
    | ensure_jit_target imaging => rfl
    | jl_init_processor_sysimg fuel hdl => rfl
    | jl_get_llvm_target imaging index =>
      show (jl_get_llvm_target E imaging index (t :: ts)).jit_targets = t :: ts
      rw [jl_get_llvm_target_cons]
    | jl_get_llvm_disasm_target index => rfl
    | jl_get_llvm_clone_targets index => rfl

/-- On a registry that is not empty no sequence of calls changes the registry. -/
theorem registry_after_all_of_ne_nil (E : Collaborators) (calls : List Call) :
    ∀ L : List TargetData, L ≠ [] → registry_after_all E calls L = L := by
  induction calls with
  | nil => intro L _; rfl
  | cons c cs ih =>
    intro L hL
    show registry_after_all E cs (registry_after E c L) = L
    rw [registry_after_of_ne_nil E c L hL]
    exact ih L hL

/-- C18: a successful `ensure_jit_target` or `jl_init_processor_sysimg` from the empty
registry leaves a registry that is not empty; on a registry that is not empty each of
the five operations leaves the registry as it was, whether it succeeds or fails; so once
a sequence of calls from the empty registry has reached a registry `L` that is not empty,
every continuation of the sequence ends with the registry `L`. -/
theorem C18_registry_write_once (E : Collaborators) :
    (∀ imaging reg, ensure_jit_target E imaging [] = ⟨.ok (), reg⟩ → reg ≠ []) ∧
    (∀ fuel id idx reg, jl_init_processor_sysimg E fuel id [] = ⟨.ok idx, reg⟩ → reg ≠ []) ∧
    (∀ call L, L ≠ [] → registry_after E call L = L) ∧
    (∀ calls L, L ≠ [] → registry_after_all E calls L = L) ∧
    (∀ before later L, registry_after_all E before [] = L → L ≠ [] →
      registry_after_all E (before ++ later) [] = L) := by
  refine ⟨?_, ?_, registry_after_of_ne_nil E, registry_after_all_of_ne_nil E, ?_⟩
  · intro imaging reg h
    rcases ensure_jit_target_nil_cases E imaging with hc | ⟨t, ts, hc⟩
    · rw [hc] at h
      simp at h
    · rw [hc] at h
      simp only [Outcome.mk.injEq, true_and] at h
      rw [← h]
      exact List.cons_ne_nil t ts
  · intro fuel id idx reg h
    rw [jl_init_processor_sysimg_nil] at h
    obtain ⟨_, t, _, _, _, hreg⟩ := sysimg_init_cb_ok E fuel id [] reg idx h
    rw [hreg]
    simp
  · intro before later L hbefore hL
    unfold registry_after_all at hbefore ⊢
    rw [List.foldl_append, hbefore]
    exact registry_after_all_of_ne_nil E later L hL

/-- C18 on a sequence of calls: the image entry point finds no catalog entry named after
the host "A" and selects the first entry, "C"; the standalone entry point, the three
accessors and a second image initialization that follow leave that registry alone. -/
theorem C18_registry_write_once_witness :
    registry_after_all (test_env "A" "" [] [named "C", named "B"])
      [.jl_init_processor_sysimg 3 []] [] = [named "C"] ∧
    registry_after_all (test_env "A" "" [] [named "C", named "B"])
      ([.jl_init_processor_sysimg 3 []] ++
        [.ensure_jit_target true, .jl_get_llvm_target false 1, .jl_get_llvm_clone_targets 0,
          .jl_get_llvm_disasm_target 0, .jl_init_processor_sysimg 3 []]) [] = [named "C"] :=
  ⟨by decide,
    (C18_registry_write_once (test_env "A" "" [] [named "C", named "B"])).2.2.2.2
      [.jl_init_processor_sysimg 3 []]
      [.ensure_jit_target true, .jl_get_llvm_target false 1, .jl_get_llvm_clone_targets 0,
        .jl_get_llvm_disasm_target 0, .jl_init_processor_sysimg 3 []]
      [named "C"] (by decide) (by decide)⟩

/-- The name that `arg_target_data` returns: the host name for the request "native", the
name of the request otherwise. -/
theorem arg_target_data_name (E : Collaborators) (r : TargetArg) (b : Bool) :
    (arg_target_data E r b).name
      = if r.name = "native" then E.jl_get_cpu_name_llvm else r.name := by
  by_cases hn : r.name = "native"
  · have hn' : r.toTargetData.name = "native" := hn
    simp only [arg_target_data, if_pos hn', if_pos hn]
    rfl
  · have hn' : ¬ r.toTargetData.name = "native" := hn
    simp only [arg_target_data, if_neg hn', if_neg hn]
    rfl

/-- Every entry that `ensure_jit_target` stores for a command line has the name of one of
the resolved requests. -/
theorem ensure_jit_target_names (E : Collaborators) (imaging : Bool) (reg : List TargetData)
    (hne : get_cmdline_targets E ≠ [])
    (hok : ensure_jit_target E imaging [] = ⟨.ok (), reg⟩) :
    ∀ t ∈ reg, ∃ r ∈ get_cmdline_targets E, t.name = (arg_target_data E r true).name := by
  have hmode : (get_cmdline_targets E).length ≤ 1 ∨ imaging = true := by
    by_contra hcon
    have h2 : 2 ≤ (get_cmdline_targets E).length := by omega
    have hf : imaging = false := by
      cases imaging with
      | false => rfl
      | true => exact absurd (Or.inr rfl) hcon
    subst hf
    rw [ensure_jit_target_conflict E h2] at hok
    simp at hok
  rw [ensure_jit_target_cmdline E imaging hne hmode] at hok
  simp only [Outcome.mk.injEq, true_and] at hok
  subst hok
  intro t ht
  obtain ⟨i, hi⟩ := List.getElem?_of_mem ht
  rw [clone_loop_getElem?, List.getElem?_map] at hi
  cases hr : (get_cmdline_targets E)[i]? with
  | none =>
    rw [hr] at hi
    split at hi <;> simp at hi
  | some r =>
    rw [hr] at hi
    refine ⟨r, List.getElem?_mem hr, ?_⟩
    split at hi
    · simp only [Option.map_some', Option.some.injEq] at hi
      rw [← hi]
      rfl
    · simp only [Option.map_some', Option.some.injEq] at hi
      rw [← hi]

/-- C19, as stated, fails: when the host source returns the name "native", the request
"native" resolves to the name "native", and `ensure_jit_target` stores a descriptor of
that name (with or without a command line). -/
theorem C19_counterexample :
    (arg_target_data (test_env "native" "" [] []) ⟨"native", "", [], 0⟩ true).name
      = "native" ∧
    ensure_jit_target (test_env "native" "" [⟨"native", "", [], 0⟩] []) false []
      = ⟨.ok (), [⟨"native", "", [], 0⟩]⟩ ∧
    ensure_jit_target (test_env "native" "" [] []) false []
      = ⟨.ok (), [⟨"native", "", [], 0⟩]⟩ := by
  decide

/-- C19, amended: as long as the host name is not "native" itself, no request resolves to
the name "native", and no descriptor stored in the registry by `ensure_jit_target` has that
name; the resolved name is "native" only for the request "native" on a host of that
name. -/
theorem C19_resolved_name_not_sentinel (E : Collaborators)
    (hhost : E.jl_get_cpu_name_llvm ≠ "native") :
    (∀ (r : TargetArg) (b : Bool), (arg_target_data E r b).name ≠ "native") ∧
    (∀ imaging reg, ensure_jit_target E imaging [] = ⟨.ok (), reg⟩ →
      ∀ t ∈ reg, t.name ≠ "native") := by
  have hres : ∀ (r : TargetArg) (b : Bool), (arg_target_data E r b).name ≠ "native" := by
    intro r b
    rw [arg_target_data_name]
    by_cases hn : r.name = "native"
    · rw [if_pos hn]
      exact hhost
    · rw [if_neg hn]
      exact hn
  refine ⟨hres, ?_⟩
  intro imaging reg hok t ht
  by_cases hcmd : get_cmdline_targets E = []
  · have hrun : ensure_jit_target E imaging [] = ⟨.ok (), [host_target_data E]⟩ := by
      simp [ensure_jit_target, hcmd]
    rw [hrun] at hok
    simp only [Outcome.mk.injEq, true_and] at hok
    subst hok
    rw [List.mem_singleton] at ht
    rw [ht]
    exact hhost
  · obtain ⟨r, _, hname⟩ := ensure_jit_target_names E imaging reg hcmd hok t ht
    rw [hname]
    exact hres r true

/-- C19, amended, on the host "A": the request "native" resolves to the name "A". -/
theorem C19_resolved_name_not_sentinel_witness :
    (test_env "A" "" [] []).jl_get_cpu_name_llvm ≠ "native" ∧
    (arg_target_data (test_env "A" "" [] []) ⟨"native", "", [], 0⟩ true).name = "A" ∧
    (arg_target_data (test_env "A" "" [] []) ⟨"native", "", [], 0⟩ true).name ≠ "native" :=
  ⟨by decide, by decide,
    (C19_resolved_name_not_sentinel (test_env "A" "" [] []) (by decide)).1
      ⟨"native", "", [], 0⟩ true⟩

/-- With exactly one request, `ensure_jit_target` stores the resolved request with the
flags of the request, whatever they are and for both values of `imaging`. -/
theorem ensure_jit_target_single (E : Collaborators) (imaging : Bool) (r : TargetArg)
    (hcmd : get_cmdline_targets E = [r]) :
    ensure_jit_target E imaging [] = ⟨.ok (), [arg_target_data E r true]⟩ := by
  simp [ensure_jit_target, hcmd]

/-- C20, the code at the failing input: with the single request "B" whose flags are the
clone-all bit, `ensure_jit_target false` returns normally from the empty registry and
stores the descriptor with the clone-all bit of the command line, where the image entry
point ends in the clone_all error on the same command line. -/
theorem C20_clone_all_accepted_outside_imaging :
    (2 : Nat) &&& (test_env "A" "" [⟨"B", "", [], 2⟩] [named "B"]).JL_TARGET_CLONE_ALL ≠ 0 ∧
    ensure_jit_target (test_env "A" "" [⟨"B", "", [], 2⟩] [named "B"]) false []
      = ⟨.ok (), [⟨"B", "", [], 2⟩]⟩ ∧
    (ensure_jit_target (test_env "A" "" [⟨"B", "", [], 2⟩] [named "B"]) false []).result
      ≠ .error .InvalidFlagForMode ∧
    jl_init_processor_sysimg (test_env "A" "" [⟨"B", "", [], 2⟩] [named "B"]) 2 [] []
      = ⟨.error .InvalidFlagForMode, []⟩ := by
  decide

end Fallback
